import Mathlib

/-!
Shallow embedding of the ext4 reader (`ext4.py`) and verification of the
specification claims about it.

Python integers are modelled as `Int` (arbitrary precision, Python floor
division `//` is `Int.fdiv`, Python `%` with a positive divisor is `Int.fmod`).
Byte strings are modelled as `List Nat`.  Exceptions are modelled with
`Except`.
-/

namespace Ext4Model

/-- The exception kinds raised by the source (Python builtins and the
`Ext4Error` hierarchy), collapsed into one inductive. -/
inductive PyErr where
  | indexError      -- Python IndexError (list index out of range)
  | attributeError  -- Python AttributeError
  | valueError      -- Python ValueError
  | osInvalid       -- OSError(EINVAL, "Invalid argument")
  | blockMapError   -- ext4.BlockMapError
  | endOfStream     -- ext4.EndOfStreamError
  | magicError      -- ext4.MagicError
  | ext4Error       -- ext4.Ext4Error ("Unknown data storage mechanism." / "not a directory")
deriving DecidableEq

/-- Equality of modelled call results is decidable (used to evaluate the
model on concrete inputs). -/
instance {ε α : Type} [DecidableEq ε] [DecidableEq α] : DecidableEq (Except ε α) :=
  fun a b =>
    match a, b with
    | .ok x, .ok y =>
      if h : x = y then .isTrue (by rw [h]) else .isFalse (by simp [h])
    | .error x, .error y =>
      if h : x = y then .isTrue (by rw [h]) else .isFalse (by simp [h])
    | .ok _, .error _ => .isFalse (by simp)
    | .error _, .ok _ => .isFalse (by simp)

/-! ## MappingEntry (ext4.py lines 316-366) -/

/-- `MappingEntry`: maps `block_count` file blocks starting at
`file_block_idx` to the disk blocks starting at `disk_block_idx`. -/
structure MappingEntry where
  file_block_idx : Int
  disk_block_idx : Int
  block_count : Int
deriving DecidableEq

/-- `MappingEntry.copy`: a fresh entry with the same three fields. -/
def MappingEntry.copy (e : MappingEntry) : MappingEntry :=
  ⟨e.file_block_idx, e.disk_block_idx, e.block_count⟩

/-- The sort order used by `MappingEntry.optimize`:
`entries.sort(key = lambda entry: entry.file_block_idx)`. -/
def fileLe (a b : MappingEntry) : Prop :=
  a.file_block_idx ≤ b.file_block_idx

instance : DecidableRel fileLe :=
  fun a b => inferInstanceAs (Decidable (a.file_block_idx ≤ b.file_block_idx))

instance : IsTotal MappingEntry fileLe :=
  ⟨fun a b => Int.le_total a.file_block_idx b.file_block_idx⟩

instance : IsTrans MappingEntry fileLe :=
  ⟨fun _ _ _ hab hbc => le_trans hab hbc⟩

/-- The merge loop of `MappingEntry.optimize` (lines 360-366): repeatedly,
while the next entry's `disk_block_idx` equals the current entry's
`disk_block_idx + block_count`, pop the next entry and add its
`block_count` to the current entry; otherwise move on to the next entry. -/
def MappingEntry.mergeRun : MappingEntry → List MappingEntry → List MappingEntry
  | a, [] => [a]
  | a, b :: rest =>
    if a.disk_block_idx + a.block_count = b.disk_block_idx then
      MappingEntry.mergeRun ⟨a.file_block_idx, a.disk_block_idx,
        a.block_count + b.block_count⟩ rest
    else
      a :: MappingEntry.mergeRun b rest

/-- `MappingEntry.optimize` (lines 354-366): sort by `file_block_idx`,
then stitch together disk-adjacent entries.  Python's `list.sort` is a
stable sort by the given key, and any two stable sorts under the same key
compute the same function; it is realised here by `List.insertionSort`,
which is stable. -/
def MappingEntry.optimize (entries : List MappingEntry) : List MappingEntry :=
  match List.insertionSort fileLe entries with
  | [] => []
  | a :: rest => MappingEntry.mergeRun a rest

/-- Total block count of a mapping list
(`sum(entry.block_count for entry in block_map)`). -/
def sumCounts (l : List MappingEntry) : Int :=
  (l.map (·.block_count)).sum

/-! ## Volume as a byte source (ext4.py lines 370-444)

For the `BlockReader` claims the `Volume` is only used through
`volume.block_size` and `volume.read(offset, byte_len)`, so it is modelled by
the underlying stream's bytes, the base offset, and the superblock's
`s_log_block_size`. -/

structure StreamVolume where
  stream : List Nat       -- the full contents of the underlying stream
  offset : Nat            -- base offset added to every request
  s_log_block_size : Nat
deriving DecidableEq

/-- `Volume.block_size` (line 410): `1 << (10 + s_log_block_size)`. -/
def StreamVolume.block_size (v : StreamVolume) : Nat :=
  1 <<< (10 + v.s_log_block_size)

/-- `Volume.read(offset, byte_len)` (lines 431-438): seek to
`self.offset + offset` and read `byte_len` bytes.  A Python stream `read`
with a negative argument reads to the end of the stream; a read past the end
returns fewer bytes (possibly none).  A negative absolute position cannot
occur in any execution considered here; `Int.toNat` clamps it to 0. -/
def StreamVolume.readBytes (v : StreamVolume) (offset byte_len : Int) : List Nat :=
  if byte_len < 0 then
    v.stream.drop ((v.offset : Int) + offset).toNat
  else
    (v.stream.drop ((v.offset : Int) + offset).toNat).take byte_len.toNat

/-! ## BlockReader (ext4.py lines 711-870) -/

/-- The mutable state of a `BlockReader`: the inode's byte size, the cursor,
and the coalesced block map.  The volume is passed separately. -/
structure BlockReaderState where
  byte_size : Int
  cursor : Int
  block_map : List MappingEntry
deriving DecidableEq

/-- `BlockReader.__init__` (lines 720-740): copy the caller's mapping list
entry by entry (so the caller's list is never mutated), check that the total
block count matches `(byte_size - 1) // block_size + 1`, raise
`BlockMapError` otherwise, then optimize the copied list and store it. -/
def blockReaderInit (vol : StreamVolume) (byte_size : Int)
    (block_map : List MappingEntry) : Except PyErr BlockReaderState :=
  let bm := block_map.map MappingEntry.copy
  if sumCounts bm ≠ (byte_size - 1).fdiv (vol.block_size : Int) + 1 then
    .error .blockMapError
  else
    .ok ⟨byte_size, 0, MappingEntry.optimize bm⟩

/-- `BlockReader.get_block_mapping` (lines 745-761): scan the block map for
the entry containing `file_block_idx`; `BlockMapError` if there is none. -/
def getBlockMapping (st : BlockReaderState) (file_block_idx : Int) :
    Except PyErr Int :=
  match st.block_map.find? (fun e =>
      e.file_block_idx ≤ file_block_idx ∧
      file_block_idx < e.file_block_idx + e.block_count) with
  | some e => .ok (e.disk_block_idx + (file_block_idx - e.file_block_idx))
  | none => .error .blockMapError

/-- `BlockReader.get_range_mapping` (lines 763-793): filter the block map to
the entries intersecting `[file_block_idx, file_block_idx + block_count)`,
raise `BlockMapError` if none intersect, then trim the first entry on the
left and the last entry on the right. -/
def getRangeMapping (st : BlockReaderState) (file_block_idx block_count : Int) :
    Except PyErr (List MappingEntry) :=
  let mapping := st.block_map.filter (fun e =>
    (e.file_block_idx ≤ file_block_idx ∧
      file_block_idx < e.file_block_idx + e.block_count) ∨
    (file_block_idx ≤ e.file_block_idx ∧
      e.file_block_idx < file_block_idx + block_count))
  match mapping with
  | [] => .error .blockMapError
  | m0 :: rest =>
    -- Trim left
    let diff := file_block_idx - m0.file_block_idx
    let m0' := if 0 < diff then
        (⟨m0.file_block_idx + diff, m0.disk_block_idx + diff,
          m0.block_count - diff⟩ : MappingEntry)
      else m0
    let lst := m0' :: rest
    -- Trim right (applies to the last element, which is `m0'` when
    -- `rest = []`, exactly as in the source where `mapping[-1]` aliases
    -- the already-trimmed `mapping[0]`)
    let last := lst.getLast (List.cons_ne_nil _ _)
    let diff2 := (last.file_block_idx + last.block_count) -
      (file_block_idx + block_count)
    .ok (if 0 < diff2 then
        lst.dropLast ++ [⟨last.file_block_idx, last.disk_block_idx,
          last.block_count - diff2⟩]
      else lst)

/-- `BlockReader.read` (lines 795-847).  Returns the bytes read and the
state with the advanced cursor.  On an exception no state is returned (the
claims below never need the post-exception cursor). -/
def blockRead (vol : StreamVolume) (st : BlockReaderState) (byte_len0 : Int) :
    Except PyErr (List Nat × BlockReaderState) :=
  if byte_len0 < -1 then .error .valueError else
  let bytes_remaining := st.byte_size - st.cursor
  let byte_len := if byte_len0 = -1 then bytes_remaining
    else max 0 (min byte_len0 bytes_remaining)
  if byte_len = 0 then .ok ([], st) else
  let B : Int := (vol.block_size : Int)
  let file_block_idx := st.cursor.fdiv B
  let offset := st.cursor.fmod B
  let end_of_stream_check := byte_len
  let raw : Except PyErr (List Nat) :=
    if file_block_idx = (st.cursor + byte_len - 1).fdiv B then
      -- Content within same block
      (getBlockMapping st file_block_idx).map (fun disk_block_idx =>
        vol.readBytes (disk_block_idx * B + offset) byte_len)
    else
      let block_count := (byte_len - 1).fdiv B + 1
      (getRangeMapping st file_block_idx block_count).map (fun mapping =>
        match mapping with
        | [] => []           -- unreachable: getRangeMapping never returns []
        | [m0] =>
          -- Content within a single block chain
          vol.readBytes (m0.disk_block_idx * B + offset) byte_len
        | m0 :: m1 :: rest =>
          -- Content sprayed all over the place
          let b0 := vol.readBytes (m0.disk_block_idx * B + offset)
            (m0.block_count * B - offset)
          let mid := (m1 :: rest).dropLast
          let acc := mid.foldl (fun (a : List Nat × Int) me =>
            let part := vol.readBytes (me.disk_block_idx * B) (me.block_count * B)
            (a.1 ++ part, a.2 - part.length)) ([], byte_len - b0.length)
          let lastE := (m1 :: rest).getLast (List.cons_ne_nil _ _)
          b0 ++ acc.1 ++ vol.readBytes (lastE.disk_block_idx * B) acc.2)
  match raw with
  | .error e => .error e
  | .ok result =>
    if (result.length : Int) ≠ end_of_stream_check then .error .endOfStream
    else .ok (result, { st with cursor := st.cursor + result.length })

/-- `BlockReader.seek` (lines 849-864), as a state transformer: the pair of
the returned value (or the raised exception) and the state after the call.
In the source the assignment `self.cursor = seek` happens only after the
negativity check, so on `OSError` the state is returned unchanged.
`seek_mode` follows `io`: `SEEK_SET = 0`, `SEEK_CUR = 1`, `SEEK_END = 2`;
any mode other than 1 and 2 leaves the target as given, as in the source. -/
def blockSeekRun (st : BlockReaderState) (seek0 : Int) (seek_mode : Nat) :
    Except PyErr Int × BlockReaderState :=
  let seek := if seek_mode = 1 then seek0 + st.cursor
    else if seek_mode = 2 then seek0 + st.byte_size
    else seek0
  if seek < 0 then (.error .osInvalid, st)
  else (.ok seek, { st with cursor := seek })

/-- `BlockReader.tell` (lines 866-870). -/
def BlockReaderState.tell (st : BlockReaderState) : Int :=
  st.cursor

/-- Ceiling division as the specification states it:
`ceil(byte_size / block_size)`, which is `0` when `byte_size = 0`. -/
def ceilDivSpec (byte_size block_size : Nat) : Nat :=
  (byte_size + block_size - 1) / block_size

/-! ## Inode record, mode predicates, attribute lookup (ext4.py 43-76, 141-196, 550-562) -/

/-- The `i_mode` type constants of `ext4_inode` (lines 155-161). -/
def S_IFDIR : Nat := 0x4000
/-- Regular-file bit of `i_mode` (line 159). -/
def S_IFREG : Nat := 0x8000
/-- `EXT4_EXTENTS_FL` (line 165). -/
def EXT4_EXTENTS_FL : Nat := 0x80000
/-- `EXT4_INLINE_DATA_FL` (line 166). -/
def EXT4_INLINE_DATA_FL : Nat := 0x10000000

/-- The parsed `ext4_inode` record, restricted to the fields the claims
touch.  Attribute *names* are modelled in full below. -/
structure Ext4Inode where
  i_mode : Nat
  i_flags : Nat
  i_size_lo : Nat
  i_size_hi : Nat
deriving DecidableEq

/-- `Inode.is_dir` (lines 550-555): `(i_mode & S_IFDIR) != 0`. -/
def Ext4Inode.is_dir (inode : Ext4Inode) : Bool :=
  inode.i_mode &&& S_IFDIR != 0

/-- `Inode.is_file` (lines 557-562): `(i_mode & S_IFREG) != 0`. -/
def Ext4Inode.is_file (inode : Ext4Inode) : Bool :=
  inode.i_mode &&& S_IFREG != 0

/-- The field names of `ext4_inode._fields_` (lines 168-196), in source
order.  Python attribute lookup on the structure resolves exactly these
(plus the class constants listed separately below). -/
def ext4InodeFieldNames : List String :=
  ["i_mode", "i_uid", "i_size_lo", "i_atime", "i_ctime", "i_mtime",
   "i_dtime", "i_gid", "i_links_count", "i_blocks_lo", "i_flags", "osd1",
   "i_block", "i_generation", "i_file_acl_lo", "i_size_hi", "i_obso_faddr",
   "osd2", "i_extra_isize", "i_checksum_hi", "i_ctime_extra",
   "i_mtime_extra", "i_atime_extra", "i_crtime", "i_crtime_extra",
   "i_version_hi", "i_projid"]

/-- The class-level constants of `ext4_inode` (lines 143-166), which Python
attribute lookup would also find. -/
def ext4InodeConstNames : List String :=
  ["S_IXOTH", "S_IWOTH", "S_IROTH", "S_IXGRP", "S_IWGRP", "S_IRGRP",
   "S_IXUSR", "S_IWUSR", "S_IRUSR", "S_ISVTX", "S_ISGID", "S_ISUID",
   "S_IFIFO", "S_IFCHR", "S_IFDIR", "S_IFBLK", "S_IFREG", "S_IFLNK",
   "S_IFSOCK", "EXT4_INDEX_FL", "EXT4_EXTENTS_FL", "EXT4_INLINE_DATA_FL"]

/-- The value of a directly-stored attribute.  Only the fields carried by
`Ext4Inode` are ever consulted by the claims; the remaining (but existing)
names resolve to an unspecified value, modelled as 0. -/
def ext4InodeDirectVal (rec : Ext4Inode) (name : String) : Nat :=
  match name with
  | "i_mode" => rec.i_mode
  | "i_flags" => rec.i_flags
  | "i_size_lo" => rec.i_size_lo
  | "i_size_hi" => rec.i_size_hi
  | _ => 0

/-- `ext4_struct.__getattr__` (lines 47-61): first try to combine
`name + "_lo"` and `name + "_hi"` (the `_hi` lookup failing falls through to
the plain lookup, because the whole combination is inside the `try` block);
then fall back to the plain attribute; finally `AttributeError`.  The `_lo`
field width is 32 bits for both combined fields reachable here. -/
def ext4InodeGetattr (rec : Ext4Inode) (name : String) : Except PyErr Nat :=
  if (name ++ "_lo") ∈ ext4InodeFieldNames ∧
      (name ++ "_hi") ∈ ext4InodeFieldNames then
    .ok ((ext4InodeDirectVal rec (name ++ "_hi")) <<< 32 |||
      ext4InodeDirectVal rec (name ++ "_lo"))
  else if name ∈ ext4InodeFieldNames ∨ name ∈ ext4InodeConstNames then
    .ok (ext4InodeDirectVal rec name)
  else
    .error .attributeError

/-- `Inode.open_read` (lines 660-693), dispatch only.  The extent-walking
branch and the value built by the (unreachable, see `C4`) inline branch are
passed in as parameters; the dispatch structure and the attribute access
`self.inode.I_flags` on the inline test are the source's. -/
def openReadDispatch {σ : Type} (rec : Ext4Inode)
    (extentsCase : Except PyErr σ) (inlineCase : σ) : Except PyErr σ :=
  if rec.i_flags &&& EXT4_EXTENTS_FL ≠ 0 then
    extentsCase
  else
    match ext4InodeGetattr rec "I_flags" with
    | .error e => .error e
    | .ok v =>
      if v &&& EXT4_INLINE_DATA_FL ≠ 0 then .ok inlineCase
      else .error .ext4Error

/-! ## Directory iteration (ext4.py lines 617-658) -/

/-- Python slice `raw[off : off + len]` for `off ≥ 0` (clamped, no error). -/
def listSlice (raw : List Nat) (off len : Nat) : List Nat :=
  (raw.drop off).take len

/-- `int.from_bytes(bytes, "little")`. -/
def leBytesVal (bytes : List Nat) : Nat :=
  bytes.foldr (fun b acc => b + (acc <<< 8)) 0

/-- Result of running the `open_dir` generator to completion:
the yielded tuples `(decoded name, inode, file_type)`, or the Python
`IndexError` raised when a record header runs past the data, or divergence
(`rec_len = 0` loops forever; modelled by exhausting fuel). -/
inductive DirResult (α : Type) where
  | entries : List (α × Nat × Nat) → DirResult α
  | idxError : DirResult α
  | outOfFuel : DirResult α
deriving DecidableEq

/-- Prepend a yielded tuple to a `DirResult`. -/
def DirResult.consEntry {α : Type} (e : α × Nat × Nat) :
    DirResult α → DirResult α
  | .entries l => .entries (e :: l)
  | .idxError => .idxError
  | .outOfFuel => .outOfFuel

/-- The loop of `Inode.open_dir` (lines 640-658) over the raw directory
bytes: while `offset < len(raw_data)`, read `file_type = raw_data[offset+7]`
and `rec_len` (little-endian 16-bit at `offset+4`); if `file_type` is not
`0xDE`, yield `(decode_name(name), inode, file_type)`; advance by `rec_len`.
Accessing `raw_data[offset+7]` out of range raises `IndexError`. -/
def openDirLoop {α : Type} (decode : List Nat → α) (raw : List Nat) :
    Nat → Nat → DirResult α
  | 0, _ => .outOfFuel
  | fuel + 1, offset =>
    if offset < raw.length then
      if h : offset + 7 < raw.length then
        let file_type := raw.get ⟨offset + 7, h⟩
        let rec_len := (raw.get ⟨offset + 5, by omega⟩) <<< 8 |||
          raw.get ⟨offset + 4, by omega⟩
        if file_type ≠ 0xDE then
          let inode := leBytesVal (listSlice raw offset 4)
          let name_len := raw.get ⟨offset + 6, by omega⟩
          let name := decode (listSlice raw (offset + 8) name_len)
          DirResult.consEntry (name, inode, file_type)
            (openDirLoop decode raw fuel (offset + rec_len))
        else
          openDirLoop decode raw fuel (offset + rec_len)
      else .idxError
    else .entries []

/-- `Inode.open_dir` applied to the full content of the inode
(`raw_data = self.open_read().read()`), with enough fuel for any
directory whose records all have `rec_len ≥ 1`. -/
def openDir {α : Type} (decode : List Nat → α) (raw : List Nat) : DirResult α :=
  openDirLoop decode raw (raw.length + 1) 0

/-- The lazy lookup
`next((inode for file_name, inode, file_type in open_dir(...) if file_name == part), None)`
used by the path walk (line 539): run the same generator loop as
`openDirLoop`, but stop at the first yielded tuple whose decoded name equals
`part` and return its inode number; `none` when the directory is exhausted. -/
def dirFind {α : Type} [DecidableEq α] (decode : List Nat → α) (raw : List Nat)
    (part : α) : Nat → Nat → DirResult α ⊕ Option Nat
  | 0, _ => .inl .outOfFuel
  | fuel + 1, offset =>
    if offset < raw.length then
      if h : offset + 7 < raw.length then
        let file_type := raw.get ⟨offset + 7, h⟩
        let rec_len := (raw.get ⟨offset + 5, by omega⟩) <<< 8 |||
          raw.get ⟨offset + 4, by omega⟩
        if file_type ≠ 0xDE then
          let inode := leBytesVal (listSlice raw offset 4)
          let name_len := raw.get ⟨offset + 6, by omega⟩
          let name := decode (listSlice raw (offset + 8) name_len)
          if name = part then .inr (some inode)
          else dirFind decode raw part fuel (offset + rec_len)
        else
          dirFind decode raw part fuel (offset + rec_len)
      else .inl .idxError
    else .inr none

/-! ## Path walk `Inode.get_inode` (ext4.py lines 519-548) -/

/-- An inode as the path walk sees it: its directory flag and the raw bytes
`open_read().read()` returns for it. -/
structure VInode where
  isDir : Bool          -- Inode.is_dir
  rawDir : List Nat     -- content bytes, parsed as directory entries
deriving DecidableEq

/-- Errors the path walk can surface. -/
inductive WalkErr where
  | notDir                    -- Ext4Error "... is not a directory."
  | fileNotFound              -- FileNotFoundError
  | dirIndexError             -- IndexError from the open_dir parsing
  | outOfFuel                 -- divergence of the open_dir loop
  | volumeError (e : PyErr)   -- error raised by volume.get_inode
deriving DecidableEq

/-- The `for`-loop body of `Inode.get_inode` (lines 534-545): for each path
part, (1) unless `ignore_flags`, require `current_inode.is_dir` (line 535);
(2) `open_dir` performs the same check once more when its first element is
demanded (line 628); (3) find the first entry whose decoded name equals the
part, else `FileNotFoundError`; (4) descend via `volume.get_inode`.
`getIno` abstracts `Volume.get_inode`; its errors (`IndexError`, parse
errors) are tagged `volumeError` and are never `notDir`. -/
def walkLoop {α : Type} [DecidableEq α] (getIno : Nat → Except PyErr VInode)
    (ignore_flags : Bool) (decode : List Nat → α) (fuel : Nat) :
    VInode → List α → Except WalkErr VInode
  | cur, [] => .ok cur
  | cur, part :: rest =>
    if ¬ignore_flags ∧ ¬cur.isDir then .error .notDir
    else if ¬ignore_flags ∧ ¬cur.isDir then .error .notDir  -- open_dir's own check
    else
      match dirFind decode cur.rawDir part fuel 0 with
      | .inl .idxError => .error .dirIndexError
      | .inl _ => .error .outOfFuel
      | .inr none => .error .fileNotFound
      | .inr (some inode_idx) =>
        match getIno inode_idx with
        | .error e => .error (.volumeError e)
        | .ok nxt => walkLoop getIno ignore_flags decode fuel nxt rest

/-- `Inode.get_inode(*relative_path)` (lines 519-548): the check
`if not self.is_dir: raise Ext4Error(...)` on the *starting* inode
(line 529) is unconditional — it is not gated by `ignore_flags` — followed
by the walk loop. -/
def inodeGetInode {α : Type} [DecidableEq α] (getIno : Nat → Except PyErr VInode)
    (ignore_flags : Bool) (decode : List Nat → α) (fuel : Nat)
    (start : VInode) (relative_path : List α) : Except WalkErr VInode :=
  if ¬start.isDir then .error .notDir
  else walkLoop getIno ignore_flags decode fuel start relative_path

/-! ## `Volume.get_inode` (ext4.py lines 412-429) -/

/-- The volume metadata `get_inode` consults: `s_inodes_per_group`,
`s_inode_size`, `s_log_block_size`, and the loaded group descriptor table,
each descriptor reduced to its combined `bg_inode_table` value. -/
structure VolumeMeta where
  s_inodes_per_group : Nat
  s_inode_size : Nat
  s_log_block_size : Nat
  group_inode_tables : List Nat
deriving DecidableEq

/-- `VolumeMeta.block_size`: `1 << (10 + s_log_block_size)` (line 410). -/
def VolumeMeta.block_size (v : VolumeMeta) : Nat :=
  1 <<< (10 + v.s_log_block_size)

/-- Python list subscription `l[i]`: a negative index addresses from the
end (`l[len(l) + i]`); out-of-range raises `IndexError`. -/
def pyListGetNat (l : List Nat) (i : Int) : Except PyErr Nat :=
  if 0 ≤ i then
    if i < (l.length : Int) then .ok (l.getD i.toNat 0)
    else .error .indexError
  else
    if 0 ≤ (l.length : Int) + i then .ok (l.getD ((l.length : Int) + i).toNat 0)
    else .error .indexError

/-- `Volume.get_inode` / `Volume.get_inode_group` (lines 412-429), up to the
offset at which the inode record is parsed:
`group_idx = (inode_idx - 1) // inodes_per_group`,
`entry = (inode_idx - 1) % inodes_per_group`,
`offset = group_descriptors[group_idx].bg_inode_table * block_size
          + entry * inode_size`.
There is no explicit range check in the source; the only failure is the
list subscription. -/
def getInodeOffset (v : VolumeMeta) (inode_idx : Int) : Except PyErr Int :=
  let group_idx := (inode_idx - 1).fdiv (v.s_inodes_per_group : Int)
  let entry_idx := (inode_idx - 1).fmod (v.s_inodes_per_group : Int)
  match pyListGetNat v.group_inode_tables group_idx with
  | .error e => .error e
  | .ok table =>
    .ok ((table : Int) * (v.block_size : Int) + entry_idx * (v.s_inode_size : Int))

/-! ## Fixed concrete instances used by counterexamples and witnesses -/

/-- A two-group volume: 8 inodes per group, 256-byte inodes, 1 KiB blocks,
inode tables of the two groups at disk blocks 100 and 200. -/
def volMetaC6 : VolumeMeta := ⟨8, 256, 0, [100, 200]⟩

/-- A volume whose underlying stream holds the byte `i / 1024` at offset
`i`, so that each 1 KiB disk block is filled with its own index. -/
def volC3 : StreamVolume := ⟨(List.range 2050).map (· / 1024), 0, 0⟩

/-- A two-extent block map: logical block 0 on disk block 0, logical
block 1 on disk block 2.  The disk blocks are not adjacent, so
`MappingEntry.optimize` keeps the two entries separate. -/
def mapC3 : List MappingEntry := [⟨0, 0, 1⟩, ⟨1, 2, 1⟩]

/-- The reader over `mapC3` positioned 5 bytes… at byte 1023, one byte
before the extent boundary at 1024. -/
def stC3 : BlockReaderState := ⟨2048, 1023, mapC3⟩

/-- A volume with an empty stream (never read in the scenarios using it). -/
def volC8 : StreamVolume := ⟨[], 0, 0⟩

/-- A single-block reader used by the seek-past-the-end scenario. -/
def stC8 : BlockReaderState := ⟨1024, 0, [⟨0, 0, 1⟩]⟩

/-- Raw directory bytes holding a single record whose inode number is 0:
inode 0, `rec_len` 12, `name_len` 2, file type 1 (regular file),
name `"ab"`, two padding bytes. -/
def rawDirInodeZero : List Nat := [0, 0, 0, 0, 12, 0, 2, 1, 97, 98, 0, 0]

/-- Raw directory bytes of the spec's sparse-directory scenario: one valid
record `foo.txt -> inode 15, file type 1` followed by a checksum record
(file type `0xDE`). -/
def rawDirSparse : List Nat :=
  [15, 0, 0, 0, 16, 0, 7, 1, 102, 111, 111, 46, 116, 120, 116, 0,
   0, 0, 0, 0, 12, 0, 0, 0xDE, 0, 0, 0, 0]

/-! ## Helper lemmas -/

/-- Two entries that cannot be stitched together by the merge loop. -/
def notDiskAdjacent (a b : MappingEntry) : Prop :=
  a.disk_block_idx + a.block_count ≠ b.disk_block_idx

theorem mergeRun_head : ∀ (l : List MappingEntry) (a : MappingEntry),
    ∃ c rest, MappingEntry.mergeRun a l =
      ⟨a.file_block_idx, a.disk_block_idx, c⟩ :: rest
  | [], a => ⟨a.block_count, [], rfl⟩
  | b :: l, a => by
    rw [MappingEntry.mergeRun]
    split
    · exact mergeRun_head l _
    · exact ⟨a.block_count, _, rfl⟩

theorem mergeRun_sorted : ∀ (l : List MappingEntry) (a : MappingEntry),
    List.Chain' fileLe (a :: l) →
    List.Chain' fileLe (MappingEntry.mergeRun a l)
  | [], a, _ => List.chain'_singleton a
  | b :: l, a, h => by
    rw [MappingEntry.mergeRun]
    obtain ⟨hab, hbl⟩ := List.chain'_cons.mp h
    split
    · refine mergeRun_sorted l _ (List.chain'_cons'.mpr ⟨?_, (List.chain'_cons'.mp hbl).2⟩)
      intro y hy
      exact le_trans hab ((List.chain'_cons'.mp hbl).1 y hy)
    · refine List.chain'_cons'.mpr ⟨?_, mergeRun_sorted l b hbl⟩
      intro y hy
      obtain ⟨c, rest, hrun⟩ := mergeRun_head l b
      rw [hrun] at hy
      simp only [List.head?_cons, Option.mem_def, Option.some.injEq] at hy
      subst hy
      exact hab

theorem mergeRun_coalesced : ∀ (l : List MappingEntry) (a : MappingEntry),
    List.Chain' notDiskAdjacent (MappingEntry.mergeRun a l)
  | [], a => List.chain'_singleton a
  | b :: l, a => by
    rw [MappingEntry.mergeRun]
    split
    · exact mergeRun_coalesced l _
    · refine List.chain'_cons'.mpr ⟨?_, mergeRun_coalesced l b⟩
      intro y hy
      obtain ⟨c, rest, hrun⟩ := mergeRun_head l b
      rw [hrun] at hy
      simp only [List.head?_cons, Option.mem_def, Option.some.injEq] at hy
      subst hy
      simpa [notDiskAdjacent] using ‹¬_›

theorem mergeRun_sum : ∀ (l : List MappingEntry) (a : MappingEntry),
    sumCounts (MappingEntry.mergeRun a l) = a.block_count + sumCounts l
  | [], a => by simp [MappingEntry.mergeRun, sumCounts]
  | b :: l, a => by
    rw [MappingEntry.mergeRun]
    split
    · rw [mergeRun_sum l _]
      simp [sumCounts]
      ring
    · have := mergeRun_sum l b
      simp only [sumCounts, List.map_cons, List.sum_cons] at *
      omega

theorem optimize_invariants (l : List MappingEntry) :
    List.Chain' fileLe (MappingEntry.optimize l) ∧
    List.Chain' notDiskAdjacent (MappingEntry.optimize l) ∧
    sumCounts (MappingEntry.optimize l) = sumCounts l := by
  have hperm : List.Perm (List.insertionSort fileLe l) l :=
    List.perm_insertionSort fileLe l
  have hsum : sumCounts (List.insertionSort fileLe l) = sumCounts l :=
    List.Perm.sum_eq (hperm.map (·.block_count))
  have hsorted : (List.insertionSort fileLe l).Sorted fileLe :=
    List.sorted_insertionSort fileLe l
  have hchain : List.Chain' fileLe (List.insertionSort fileLe l) :=
    List.Pairwise.chain' hsorted
  unfold MappingEntry.optimize
  match hm : List.insertionSort fileLe l with
  | [] =>
    rw [hm] at hsum
    simpa [sumCounts] using hsum
  | a :: rest =>
    rw [hm] at hsum hchain
    refine ⟨mergeRun_sorted rest a hchain, mergeRun_coalesced rest a, ?_⟩
    rw [mergeRun_sum rest a, ← hsum]
    simp [sumCounts]

theorem block_size_pos (v : StreamVolume) : 0 < v.block_size := by
  simp [StreamVolume.block_size, Nat.one_shiftLeft]

/-- The constructor's check value `(byte_size - 1) // block_size + 1`
(Python floor division) equals `ceil(byte_size / block_size)` with the
convention `ceil(0 / B) = 0`, for every natural byte size. -/
theorem fdiv_check_eq_ceil (sz B : Nat) (hB : 0 < B) :
    ((sz : Int) - 1).fdiv (B : Int) + 1 = (ceilDivSpec sz B : Int) := by
  obtain ⟨m, rfl⟩ : ∃ m, B = m + 1 := ⟨B - 1, by omega⟩
  cases sz with
  | zero =>
    have h1 : ((0 : Nat) : Int) - 1 = Int.negSucc 0 := rfl
    rw [h1]
    have h2 : Int.fdiv (Int.negSucc 0) ((m + 1 : Nat) : Int) = -1 := by
      show Int.fdiv (Int.negSucc 0) (Int.ofNat (m + 1)) = -1
      simp [Int.fdiv]
    rw [h2]
    have h3 : ceilDivSpec 0 (m + 1) = 0 := by
      unfold ceilDivSpec
      exact Nat.div_eq_of_lt (by omega)
    rw [h3]
    simp
  | succ n =>
    have h1 : ((n + 1 : Nat) : Int) - 1 = ((n : Nat) : Int) := by push_cast; ring
    rw [h1, ← Int.ofNat_fdiv]
    have h2 : ceilDivSpec (n + 1) (m + 1) = n / (m + 1) + 1 := by
      unfold ceilDivSpec
      have h3 : n + 1 + (m + 1) - 1 = n + (m + 1) := by omega
      rw [h3, Nat.add_div_right _ (by omega)]
    rw [h2]
    push_cast
    ring

/-- With `ignore_flags = True` the walk loop itself can fail with
`FileNotFoundError`, an `IndexError`, or an error from `volume.get_inode`,
but never with the not-a-directory error: both directory-ness checks are
gated by `ignore_flags`. -/
theorem walkLoop_ne_notDir {α : Type} [DecidableEq α]
    (getIno : Nat → Except PyErr VInode) (decode : List Nat → α) (fuel : Nat) :
    ∀ (parts : List α) (cur : VInode),
      walkLoop getIno true decode fuel cur parts ≠ .error .notDir
  | [], cur => by simp [walkLoop]
  | part :: rest, cur => by
    rw [walkLoop]
    simp only [not_true_eq_false, false_and, if_false]
    cases hdf : dirFind decode cur.rawDir part fuel 0 with
    | inl d => cases d <;> simp
    | inr o =>
      cases o with
      | none => simp
      | some inode_idx =>
        dsimp only
        cases hgi : getIno inode_idx with
        | error e => simp
        | ok nxt => simpa using walkLoop_ne_notDir getIno decode fuel rest nxt

/-- Whatever raw bytes a directory inode holds, a record whose file type is
`0xDE` is filtered out by the generator loop before it can be yielded. -/
theorem openDirLoop_no_checksum {α : Type} (decode : List Nat → α)
    (raw : List Nat) :
    ∀ (fuel offset : Nat) (l : List (α × Nat × Nat)),
      openDirLoop decode raw fuel offset = .entries l →
      ∀ e ∈ l, e.2.2 ≠ 0xDE := by
  intro fuel
  induction fuel with
  | zero => intro offset l h; exact absurd h (by simp [openDirLoop])
  | succ fuel ih =>
    intro offset l h
    rw [openDirLoop] at h
    by_cases h0 : offset < raw.length
    · rw [if_pos h0] at h
      by_cases h7 : offset + 7 < raw.length
      · rw [dif_pos h7] at h
        by_cases hft : raw.get ⟨offset + 7, h7⟩ ≠ 0xDE
        · rw [if_pos hft] at h
          set rec_len := (raw.get ⟨offset + 5, by omega⟩) <<< 8 |||
            raw.get ⟨offset + 4, by omega⟩ with hrl
          match hrec : openDirLoop decode raw fuel (offset + rec_len) with
          | .entries l' =>
            rw [hrec] at h
            simp only [DirResult.consEntry, DirResult.entries.injEq] at h
            subst h
            intro e he
            rcases List.mem_cons.mp he with he | he
            · subst he; exact hft
            · exact ih (offset + rec_len) l' hrec e he
          | .idxError => rw [hrec] at h; exact absurd h (by simp [DirResult.consEntry])
          | .outOfFuel => rw [hrec] at h; exact absurd h (by simp [DirResult.consEntry])
        · rw [if_neg hft] at h
          exact ih _ l h
      · rw [dif_neg h7] at h
        exact absurd h (by simp)
    · rw [if_neg h0] at h
      simp only [DirResult.entries.injEq] at h
      subst h
      intro e he
      exact absurd he (List.not_mem_nil e)

/-! ## Claims -/

/-- C1, counterexample: `open_dir` yields records whose inode number is 0.
On a directory holding a single record with inode number 0 (`rawDirInodeZero`)
the generator yields the tuple `("ab", 0, 1)`, so it is not the case that no
yielded entry has inode number 0. -/
theorem C1_open_dir_counterexample :
    openDirLoop (fun raw => raw) rawDirInodeZero 2 0 =
      .entries [([97, 98], 0, 1)] ∧
    ¬∀ e ∈ [(([97, 98] : List Nat), (0 : Nat), (1 : Nat))], e.2.1 ≠ 0 := by
  constructor
  · decide
  · decide

/-- C1, amended: `open_dir` walks the records in on-disk order advancing by
`rec_len` and never yields an entry whose file type is `0xDE`; records with
inode number 0, however, are not skipped — they are yielded like any other
record (see the counterexample). -/
theorem C1_open_dir_no_checksum_yield {α : Type} (decode : List Nat → α)
    (raw : List Nat) (fuel offset : Nat) (l : List (α × Nat × Nat))
    (h : openDirLoop decode raw fuel offset = .entries l) :
    ∀ e ∈ l, e.2.2 ≠ 0xDE :=
  openDirLoop_no_checksum decode raw fuel offset l h

/-- C1, witness: on the spec's sparse-directory bytes (`foo.txt -> 15`
followed by a checksum record) the generator yields exactly one tuple, and
the theorem applies: no yielded entry has file type `0xDE`. -/
theorem C1_open_dir_witness :
    openDirLoop (fun raw => raw) rawDirSparse 3 0 =
      .entries [([102, 111, 111, 46, 116, 120, 116], 15, 1)] ∧
    ∀ e ∈ [(([102, 111, 111, 46, 116, 120, 116] : List Nat),
      (15 : Nat), (1 : Nat))], e.2.2 ≠ 0xDE :=
  ⟨by decide,
   C1_open_dir_no_checksum_yield (fun raw => raw) rawDirSparse 3 0 _ (by decide)⟩

/-- C2, counterexample: two entries that are disk-adjacent
(`10 + 1 = 11`) but whose logical ranges do not abut (`0 + 1 ≠ 5`) are
nevertheless merged by `MappingEntry.optimize`, so the claim that such a
pair is left unmerged is false. -/
theorem C2_optimize_counterexample :
    (⟨0, 10, 1⟩ : MappingEntry).disk_block_idx +
      (⟨0, 10, 1⟩ : MappingEntry).block_count =
      (⟨5, 11, 1⟩ : MappingEntry).disk_block_idx ∧
    (⟨0, 10, 1⟩ : MappingEntry).file_block_idx +
      (⟨0, 10, 1⟩ : MappingEntry).block_count ≠
      (⟨5, 11, 1⟩ : MappingEntry).file_block_idx ∧
    MappingEntry.optimize [⟨0, 10, 1⟩, ⟨5, 11, 1⟩] ≠
      [⟨0, 10, 1⟩, ⟨5, 11, 1⟩] ∧
    MappingEntry.optimize [⟨0, 10, 1⟩, ⟨5, 11, 1⟩] = [⟨0, 10, 2⟩] := by
  refine ⟨by decide, by decide, by decide, by decide⟩

/-- C2, amended: `MappingEntry.optimize` sorts the entries by
`file_block_idx` and then merges an adjacent pair exactly when
`entries[i].disk_block_idx + entries[i].block_count ==
entries[i+1].disk_block_idx`, regardless of whether the logical ranges
abut: in the result the entries are sorted by `file_block_idx`, no adjacent
pair is disk-adjacent any more, and the total block count is preserved. -/
theorem C2_optimize_merges_disk_adjacent (l : List MappingEntry) :
    List.Chain' fileLe (MappingEntry.optimize l) ∧
    List.Chain' notDiskAdjacent (MappingEntry.optimize l) ∧
    sumCounts (MappingEntry.optimize l) = sumCounts l :=
  optimize_invariants l

/-- C4, theorem (code bug): for every inode whose `EXTENTS` flag is clear —
in particular every inline-data inode — `open_read` evaluates
`self.inode.I_flags`, a name that resolves to no field of `ext4_inode`
(the field is `i_flags`; Python is case-sensitive), so it raises
`AttributeError` instead of returning the in-memory inline byte stream. -/
theorem C4_open_read_inline_attribute_error {σ : Type} (rec : Ext4Inode)
    (extentsCase : Except PyErr σ) (inlineCase : σ)
    (h : rec.i_flags &&& EXT4_EXTENTS_FL = 0) :
    openReadDispatch rec extentsCase inlineCase = .error .attributeError := by
  unfold openReadDispatch
  rw [if_neg (by simp [h])]
  have hattr : ext4InodeGetattr rec "I_flags" = .error .attributeError := by
    unfold ext4InodeGetattr
    rw [if_neg (by decide), if_neg (by decide)]
  rw [hattr]

/-- C4, witness: the spec's inline-data scenario — an inode with
`i_flags = INLINE_DATA` (extents clear) — hits the `AttributeError`. -/
theorem C4_open_read_inline_witness :
    (⟨0x8000, 0x10000000, 42, 0⟩ : Ext4Inode).i_flags &&& EXT4_EXTENTS_FL = 0 ∧
    openReadDispatch (⟨0x8000, 0x10000000, 42, 0⟩ : Ext4Inode)
      (.ok ([] : List Nat)) [] = .error .attributeError :=
  ⟨by decide,
   C4_open_read_inline_attribute_error ⟨0x8000, 0x10000000, 42, 0⟩ _ _ (by decide)⟩

/-- C9: `is_dir` and `is_file` are single-bit tests (`i_mode & 0x4000` and
`i_mode & 0x8000`), so `is_dir` is true for a block-device inode (mode type
`0x6000`) and `is_file` is true for a symlink (`0xA000`) and for a socket
(`0xC000`). -/
theorem C9_single_bit_type_tests (a b c : Ext4Inode)
    (ha : a.i_mode &&& 0xF000 = 0x6000)
    (hb : b.i_mode &&& 0xF000 = 0xA000)
    (hc : c.i_mode &&& 0xF000 = 0xC000) :
    a.is_dir = true ∧ b.is_file = true ∧ c.is_file = true := by
  have key : ∀ (m t mask : Nat), 0xF000 &&& mask = mask → m &&& 0xF000 = t →
      m &&& mask = t &&& mask := by
    intro m t mask hmask h
    calc m &&& mask = m &&& (0xF000 &&& mask) := by rw [hmask]
    _ = (m &&& 0xF000) &&& mask := (Nat.and_assoc m 0xF000 mask).symm
    _ = t &&& mask := by rw [h]
  refine ⟨?_, ?_, ?_⟩
  · have := key a.i_mode 0x6000 0x4000 (by decide) ha
    simp only [Ext4Inode.is_dir, S_IFDIR]
    rw [this]
    decide
  · have := key b.i_mode 0xA000 0x8000 (by decide) hb
    simp only [Ext4Inode.is_file, S_IFREG]
    rw [this]
    decide
  · have := key c.i_mode 0xC000 0x8000 (by decide) hc
    simp only [Ext4Inode.is_file, S_IFREG]
    rw [this]
    decide

/-- C9, witness: a block device with mode `0o60644`-style bits
(`0x61A4`), a symlink with mode `0xA1FF`, and a socket with mode `0xC1B6`. -/
theorem C9_single_bit_type_tests_witness :
    (⟨0x61A4, 0, 0, 0⟩ : Ext4Inode).i_mode &&& 0xF000 = 0x6000 ∧
    (⟨0xA1FF, 0, 0, 0⟩ : Ext4Inode).i_mode &&& 0xF000 = 0xA000 ∧
    (⟨0xC1B6, 0, 0, 0⟩ : Ext4Inode).i_mode &&& 0xF000 = 0xC000 ∧
    ((⟨0x61A4, 0, 0, 0⟩ : Ext4Inode).is_dir = true ∧
     (⟨0xA1FF, 0, 0, 0⟩ : Ext4Inode).is_file = true ∧
     (⟨0xC1B6, 0, 0, 0⟩ : Ext4Inode).is_file = true) :=
  ⟨by decide, by decide, by decide,
   C9_single_bit_type_tests ⟨0x61A4, 0, 0, 0⟩ ⟨0xA1FF, 0, 0, 0⟩
     ⟨0xC1B6, 0, 0, 0⟩ (by decide) (by decide) (by decide)⟩

/-- C10: when `seek` raises the invalid-argument `OSError` (the computed
absolute target is negative), the cursor is not assigned: `tell()` after
the failed seek equals `tell()` before it. -/
theorem C10_failed_seek_keeps_cursor (st : BlockReaderState)
    (seek0 : Int) (seek_mode : Nat) (e : PyErr)
    (h : (blockSeekRun st seek0 seek_mode).1 = .error e) :
    (blockSeekRun st seek0 seek_mode).2.tell = st.tell := by
  unfold blockSeekRun at h ⊢
  dsimp only at h ⊢
  generalize (if seek_mode = 1 then seek0 + st.cursor
    else if seek_mode = 2 then seek0 + st.byte_size else seek0) = s at h ⊢
  split at h
  · rename_i hs
    rw [if_pos hs]
  · exact absurd h (by simp)

/-- C10, witness: `seek(-10, SET)` from cursor 5 fails with the
invalid-argument error and `tell()` still returns 5. -/
theorem C10_failed_seek_witness :
    (blockSeekRun ⟨1024, 5, []⟩ (-10) 0).1 = .error .osInvalid ∧
    (blockSeekRun ⟨1024, 5, []⟩ (-10) 0).2.tell = (5 : Int) :=
  ⟨by decide, C10_failed_seek_keeps_cursor ⟨1024, 5, []⟩ (-10) 0 .osInvalid (by decide)⟩

/-- C6, counterexample: `get_inode(0)` — an index strictly below 1 — does
not fail.  On a two-group volume, `(0 - 1) // 8 = -1` and Python's negative
list indexing silently selects the *last* group descriptor, so the inode
record is parsed at `200 * 1024 + 7 * 256 = 206592`. -/
theorem C6_get_inode_counterexample :
    (0 : Int) < 1 ∧
    getInodeOffset volMetaC6 0 = .ok 206592 ∧
    getInodeOffset volMetaC6 0 ≠ .error .indexError := by
  refine ⟨by decide, by decide, by decide⟩

/-- C6, amended: `get_inode(index)` fails with an index-out-of-range error
iff `(index - 1) // inodes_per_group` is `≥ group_count` or
`< -group_count`; it does *not* fail merely because `index < 1` (negative
group indices down to `-group_count` wrap around to descriptors counted
from the end of the table).  For `index ≥ 1` with its group in range, the
inode record is parsed at
`inode_table_base + ((index - 1) mod inodes_per_group) * inode_size`. -/
theorem C6_get_inode_range (v : VolumeMeta) (inode_idx : Int)
    (hipg : 0 < v.s_inodes_per_group) :
    (getInodeOffset v inode_idx = .error .indexError ↔
      ((v.group_inode_tables.length : Int) ≤
        (inode_idx - 1).fdiv (v.s_inodes_per_group : Int) ∨
       (inode_idx - 1).fdiv (v.s_inodes_per_group : Int) <
        -(v.group_inode_tables.length : Int))) ∧
    (1 ≤ inode_idx →
      (inode_idx - 1).fdiv (v.s_inodes_per_group : Int) <
        (v.group_inode_tables.length : Int) →
      getInodeOffset v inode_idx = .ok
        ((v.group_inode_tables.getD
            ((inode_idx - 1).fdiv (v.s_inodes_per_group : Int)).toNat 0 : Int) *
          (v.block_size : Int) +
         ((inode_idx - 1).fmod (v.s_inodes_per_group : Int)) *
          (v.s_inode_size : Int))) := by
  constructor
  · unfold getInodeOffset pyListGetNat
    dsimp only
    by_cases h0 : 0 ≤ (inode_idx - 1).fdiv (v.s_inodes_per_group : Int)
    · rw [if_pos h0]
      by_cases h1 : (inode_idx - 1).fdiv (v.s_inodes_per_group : Int) <
          (v.group_inode_tables.length : Int)
      · rw [if_pos h1]
        simp only [reduceCtorEq, false_iff]
        omega
      · rw [if_neg h1]
        simp only [Except.error.injEq, true_iff]
        omega
    · rw [if_neg h0]
      by_cases h2 : 0 ≤ (v.group_inode_tables.length : Int) +
          (inode_idx - 1).fdiv (v.s_inodes_per_group : Int)
      · rw [if_pos h2]
        simp only [reduceCtorEq, false_iff]
        omega
      · rw [if_neg h2]
        simp only [Except.error.injEq, true_iff]
        omega
  · intro hidx hlt
    have h0 : 0 ≤ (inode_idx - 1).fdiv (v.s_inodes_per_group : Int) :=
      Int.fdiv_nonneg (by omega) (by omega)
    unfold getInodeOffset pyListGetNat
    dsimp only
    rw [if_pos h0, if_pos hlt]

/-- C6, witness: on the same two-group volume, `get_inode(1)` resolves in
group 0 at offset `100 * 1024 + 0 * 256 = 102400`. -/
theorem C6_get_inode_witness :
    0 < volMetaC6.s_inodes_per_group ∧
    (1 : Int) ≤ 1 ∧
    getInodeOffset volMetaC6 1 = .ok 102400 := by
  refine ⟨by decide, by decide, ?_⟩
  exact ((C6_get_inode_range volMetaC6 1 (by decide)).2 (by decide)
    (by decide)).trans (by decide)

/-- C7, counterexample: with `ignore_flags = True`, resolving the path
`["A"]` from a non-directory starting inode still raises the
not-a-directory error, because the check on the starting inode (line 529)
is not gated by `ignore_flags`. -/
theorem C7_walk_counterexample :
    inodeGetInode (fun _ => .error .indexError) true (fun raw => raw) 10
      ⟨false, []⟩ [[65]] = .error .notDir := by
  decide

/-- C7, amended: with `ignore_flags = True` the walk enforces no
directory-ness on any inode reached *during* the walk — once the starting
inode passes, the walk can only fail with file-not-found, an index error,
or an error from `volume.get_inode`, never not-a-directory.  The starting
inode's directory-ness, however, is enforced unconditionally (see the
counterexample). -/
theorem C7_walk_ignore_flags_no_notdir {α : Type} [DecidableEq α]
    (getIno : Nat → Except PyErr VInode) (decode : List Nat → α) (fuel : Nat)
    (start : VInode) (relative_path : List α) (h : start.isDir = true) :
    inodeGetInode getIno true decode fuel start relative_path ≠
      .error .notDir := by
  unfold inodeGetInode
  rw [if_neg (by simp [h])]
  exact walkLoop_ne_notDir getIno decode fuel relative_path start

/-- C7, witness: a directory starting inode with an empty path resolves to
itself, and the theorem applies. -/
theorem C7_walk_witness :
    (⟨true, []⟩ : VInode).isDir = true ∧
    inodeGetInode (fun _ => .error .indexError) true (fun raw => raw) 1
      ⟨true, []⟩ [] ≠ .error .notDir :=
  ⟨rfl, C7_walk_ignore_flags_no_notdir (fun _ => .error .indexError)
    (fun raw => raw) 1 ⟨true, []⟩ [] rfl⟩

/-- C8, counterexample: on a one-block reader (`byte_size = 1024`),
`seek(2048, SET)` succeeds, but the subsequent `read(-1)` raises
`BlockMapError` instead of returning the empty byte string: `byte_len`
becomes negative (`-1024`), the computed `block_count` is `-1`, and
`get_range_mapping` finds no intersecting entry. -/
theorem C8_read_minus_one_counterexample :
    stC8.byte_size < 2048 ∧
    (blockSeekRun stC8 2048 0).1 = .ok 2048 ∧
    (blockSeekRun stC8 2048 0).2.cursor = 2048 ∧
    blockRead volC8 ⟨1024, 2048, [⟨0, 0, 1⟩]⟩ (-1) = .error .blockMapError := by
  refine ⟨by decide, by decide, by decide, by decide⟩

/-- C8, amended: `seek(offset, SET)` with `offset > byte_size` succeeds and
sets the cursor, and every subsequent `read(n)` with `n ≥ 0` returns the
empty byte string without moving the cursor; `read(-1)` from such a cursor,
however, raises an error instead of returning empty (see the
counterexample). -/
theorem C8_seek_past_end_reads_empty (vol : StreamVolume)
    (st : BlockReaderState) (off n : Int) (h0 : 0 ≤ st.byte_size)
    (h1 : st.byte_size < off) (h2 : 0 ≤ n) :
    (blockSeekRun st off 0).1 = .ok off ∧
    (blockSeekRun st off 0).2.cursor = off ∧
    blockRead vol { st with cursor := off } n =
      .ok ([], { st with cursor := off }) := by
  have hseek : blockSeekRun st off 0 = (.ok off, { st with cursor := off }) := by
    have hnn : ¬ off < 0 := by omega
    simp [blockSeekRun, hnn]
  have hbl : max 0 (min n (st.byte_size - off)) = 0 :=
    max_eq_left (le_trans (min_le_right _ _) (by omega))
  refine ⟨by rw [hseek], by rw [hseek], ?_⟩
  unfold blockRead
  rw [if_neg (show ¬ n < -1 by omega)]
  dsimp only
  rw [if_neg (show ¬ n = -1 by omega), hbl]
  rw [if_pos rfl]

/-- C8, witness: reading 5 bytes after seeking to 2048 on the one-block
reader returns the empty byte string. -/
theorem C8_seek_past_end_witness :
    (0 : Int) ≤ stC8.byte_size ∧ stC8.byte_size < 2048 ∧ (0 : Int) ≤ 5 ∧
    blockRead volC8 ⟨1024, 2048, [⟨0, 0, 1⟩]⟩ 5 =
      .ok ([], ⟨1024, 2048, [⟨0, 0, 1⟩]⟩) :=
  ⟨by decide, by decide, by decide,
   (C8_seek_past_end_reads_empty volC8 stC8 2048 5 (by decide) (by decide)
     (by decide)).2.2⟩

/-- C5: `BlockReader.__init__` fails with `BlockMapError` exactly when the
sum of the supplied `block_count`s differs from
`ceil(byte_size / block_size)` (0 for an empty file); on success it stores
the optimized (sorted, disk-adjacent-coalesced) mapping built from
entry-by-entry copies, so the caller's list is never mutated
(`MappingEntry.copy` reproduces each entry). -/
theorem C5_init_checks_block_count (vol : StreamVolume) (sz : Nat)
    (bm : List MappingEntry) :
    (blockReaderInit vol (sz : Int) bm = .error .blockMapError ↔
      sumCounts bm ≠ (ceilDivSpec sz vol.block_size : Int)) ∧
    (sumCounts bm = (ceilDivSpec sz vol.block_size : Int) →
      blockReaderInit vol (sz : Int) bm =
        .ok ⟨(sz : Int), 0, MappingEntry.optimize bm⟩ ∧
      bm.map MappingEntry.copy = bm) := by
  have hcopy : bm.map MappingEntry.copy = bm := by
    have hid : MappingEntry.copy = id := funext fun e => rfl
    rw [hid, List.map_id]
  have hceil := fdiv_check_eq_ceil sz vol.block_size (block_size_pos vol)
  unfold blockReaderInit
  dsimp only
  rw [hcopy, hceil]
  by_cases hc : sumCounts bm = (ceilDivSpec sz vol.block_size : Int)
  · rw [if_neg (fun hne => hne hc)]
    exact ⟨by simp [hc], fun _ => ⟨rfl, rfl⟩⟩
  · rw [if_pos hc]
    exact ⟨by simp [hc], fun h => absurd h hc⟩

/-- C5, witness: the two-extent mapping of `mapC3` sums to
`2 = ceil(2048 / 1024)`, so construction succeeds with the optimized
mapping. -/
theorem C5_init_witness :
    sumCounts mapC3 = (ceilDivSpec 2048 volC3.block_size : Int) ∧
    blockReaderInit volC3 (2048 : Nat) mapC3 =
      .ok ⟨((2048 : Nat) : Int), 0, MappingEntry.optimize mapC3⟩ :=
  ⟨by decide, ((C5_init_checks_block_count volC3 2048 mapC3).2 (by decide)).1⟩

set_option maxRecDepth 40000 in
/-- C3 (code bug): a `read(2)` that crosses the extent boundary between
logical blocks 0 and 1 of `stC3` — whose two extents live on the
non-adjacent disk blocks 0 and 2 — returns the bytes at disk offsets
1023 and 1024 (it keeps reading past extent 0, into disk block 1), whereas
reading the same two logical bytes one byte at a time returns the bytes at
disk offsets 1023 and 2048.  The cause: `read` computes
`block_count = (byte_len - 1) // block_size + 1 = 1`, which understates the
two-block span of the request, so `get_range_mapping(0, 1)` never sees the
second extent. -/
theorem C3_cross_extent_read_bug :
    blockReaderInit volC3 (2048 : Int) mapC3 = .ok ⟨2048, 0, mapC3⟩ ∧
    (blockSeekRun ⟨2048, 0, mapC3⟩ 1023 0).2 = stC3 ∧
    blockRead volC3 stC3 2 = .ok ([0, 1], ⟨2048, 1025, mapC3⟩) ∧
    ((blockRead volC3 stC3 1).bind fun p =>
      (blockRead volC3 p.2 1).map fun q => p.1 ++ q.1) = .ok [0, 2] ∧
    ([0, 1] : List Nat) ≠ [0, 2] := by
  refine ⟨by decide, by decide, by decide, by decide, by decide⟩

end Ext4Model
